import Mathlib

/-!
Shallow embedding of the rate-update decision and batching engine of
sanity-price-monitor (src/pricemonitor/storing/storing.py and the force
flag of src/pricemonitor/monitoring/monitor_actions.py).

Numeric values are modelled over the rationals; Python None is Option.none;
Python exceptions are Except errors.  The external web3 transport
(call_local_function / call_remote_function, an out-of-scope collaborator
per the spec) is passed in as an oracle function.
-/

namespace PriceMonitor

/-- Asset descriptor: symbol, on-chain address and volatility threshold
(field names follow the code, where the threshold field is coin.volatility). -/
structure Coin where
  symbol : String
  address : String
  volatility : ℚ
  deriving DecidableEq

/-- Market descriptor. -/
structure Market where
  symbol : String
  deriving DecidableEq

/-- A pair (coin, market), the key of the rates dictionary. -/
abbrev Pair := Coin × Market

/-- Python TypeError, raised when None meets arithmetic or numeric string
formatting in the embedded code paths. -/
inductive PyError
  | typeError
  deriving DecidableEq

/-- Web3ConnectionError raised by the transport on a read. -/
inductive ConnError
  | web3ConnectionError
  deriving DecidableEq

/-- Errors raised by the transport on a remote write. -/
inductive SubmitError
  | previousTransactionPending
  | otherFailure
  deriving DecidableEq

/-- Errors that propagate out of update_prices. -/
inductive CycleError
  | connectionFailed
  | typeError
  | submissionFailed
  deriving DecidableEq

/-- SanityContractUpdater.SET_RATES_FUNCTION_NAME. -/
def SET_RATES_FUNCTION_NAME : String := "setSanityRates"

/-- SanityContractUpdater.GET_RATE_FUNCTION_NAME. -/
def GET_RATE_FUNCTION_NAME : String := "tokenRate"

/-- ContractRateArgumentsConverter.CHANGE_FACTOR = 10 ** 18. -/
def CHANGE_FACTOR : ℤ := 10 ^ 18

/-- Python round(): round half to even (bankers rounding), here on an exact
rational (the code applies it to a binary float). -/
def pyRound (q : ℚ) : ℤ :=
  let f : ℤ := ⌊q⌋
  let frac : ℚ := q - (f : ℚ)
  if frac < 1 / 2 then f
  else if 1 / 2 < frac then f + 1
  else if f % 2 = 0 then f else f + 1

/-- ContractRateArgumentsConverter.convert_rate_from_contract_units:
rate_from_contract / CHANGE_FACTOR.  The code divides in binary floating
point; the embedding uses the exact rational quotient. -/
def convert_rate_from_contract_units (rate_from_contract : ℤ) : ℚ :=
  (rate_from_contract : ℚ) / (CHANGE_FACTOR : ℚ)

/-- ContractRateArgumentsConverter.convert_price_to_contract_units:
round(price * CHANGE_FACTOR).  The code multiplies in binary floating
point; the embedding uses exact rational multiplication. -/
def convert_price_to_contract_units (price : ℚ) : ℤ :=
  pyRound (price * (CHANGE_FACTOR : ℚ))

/-- ContractRateArgumentsConverter.format_coin_for_getter. -/
def format_coin_for_getter (coin : Coin) : List String :=
  [coin.address]

/-- ContractRateArgumentsConverter.format_coin_prices_for_setter: walk the
batch in order and, for every entry whose price is truthy in Python
(not None and not zero), append the coin address to sources and the
converted price to rates. -/
def format_coin_prices_for_setter :
    List (Pair × Option ℚ) → List String × List ℤ
  | [] => ([], [])
  | ((coin, _market), price) :: rest =>
    let tail := format_coin_prices_for_setter rest
    match price with
    | none => tail
    | some p =>
      if p = 0 then tail
      else (coin.address :: tail.1, convert_price_to_contract_units p :: tail.2)

/-- SanityContractUpdater.get_rate: one tokenRate read through the transport
oracle; a Web3ConnectionError is logged and re-raised; the single returned
value is converted to a decimal rate. -/
def get_rate (call_local : String → List String → Except ConnError ℤ)
    (coin : Coin) : Except ConnError ℚ :=
  match call_local GET_RATE_FUNCTION_NAME (format_coin_for_getter coin) with
  | .error e => .error e
  | .ok rate_from_contract => .ok (convert_rate_from_contract_units rate_from_contract)

/-- SanityContractUpdater._get_previous_rates: gather the per-coin reads into
a map keyed by (coin, market); any single failure aborts the whole fetch
(asyncio.gather without return_exceptions propagates the exception). -/
def _get_previous_rates (call_local : String → List String → Except ConnError ℤ) :
    List Coin → Market → Except ConnError (List (Pair × ℚ))
  | [], _ => .ok []
  | coin :: rest, market =>
    match get_rate call_local coin with
    | .error e => .error e
    | .ok rate =>
      match _get_previous_rates call_local rest market with
      | .error e => .error e
      | .ok tail => .ok (((coin, market), rate) :: tail)

/-- SanityContractUpdater._get_previous_rate: dictionary lookup returning
None on a missing key (the except KeyError branch). -/
def _get_previous_rate (coin : Coin) (market : Market) :
    List (Pair × ℚ) → Option ℚ
  | [] => none
  | (k, v) :: rest =>
    if k = (coin, market) then some v else _get_previous_rate coin market rest

/-- SanityContractUpdater._should_update_price.  previous_rate == 0 takes the
bootstrap branch (None == 0 is False in Python, so a None previous rate
falls into the else branch and the subtraction raises TypeError); in the
bootstrap branch the debug log line formats current_rate with a float format
spec, which raises TypeError when current_rate is None. -/
def _should_update_price (coin : Coin) (_market : Market)
    (previous_rate current_rate : Option ℚ) : Except PyError Bool :=
  match previous_rate, current_rate with
  | some p, some c =>
    if p = 0 then .ok true
    else .ok (decide (|c - p| / p > coin.volatility))
  | some _, none => .error .typeError
  | none, _ => .error .typeError

/-- SanityContractUpdater._prepare_rates_for_update: walk the observations in
order, query _should_update_price against the looked-up previous rate, and
keep the entries whose decision is True; the first raised exception aborts
the loop. -/
def _prepare_rates_for_update (previous_rates : List (Pair × ℚ)) :
    List (Pair × Option ℚ) → Except PyError (List (Pair × Option ℚ))
  | [] => .ok []
  | ((coin, market), price) :: rest =>
    match _should_update_price coin market
        (_get_previous_rate coin market previous_rates) price with
    | .error e => .error e
    | .ok su =>
      match _prepare_rates_for_update previous_rates rest with
      | .error e => .error e
      | .ok tail => .ok (if su then ((coin, market), price) :: tail else tail)

/-- SanityContractUpdater.set_rates: one remote setSanityRates write with the
serialized arguments. -/
def set_rates (call_remote : String → List String × List ℤ → Except SubmitError ℕ)
    (coin_price_data : List (Pair × Option ℚ)) : Except SubmitError ℕ :=
  call_remote SET_RATES_FUNCTION_NAME (format_coin_prices_for_setter coin_price_data)

deriving instance DecidableEq for Except

/-- Result of one update_prices cycle: the returned value (receipt or None),
the updates_requested counter afterwards, and the remote write calls made. -/
structure CycleOutcome where
  result : Except CycleError (Option ℕ)
  updates_requested : ℕ
  remote_calls : List (List String × List ℤ)
  deriving DecidableEq

/-- SanityContractUpdater.update_prices: fetch the previous rates (any read
failure propagates), pick the batch (all observations when force, the
decision engine output otherwise), and if the batch is truthy submit once,
incrementing the counter only on success and swallowing a pending-transaction
collision into a None result. -/
def update_prices (call_local : String → List String → Except ConnError ℤ)
    (call_remote : String → List String × List ℤ → Except SubmitError ℕ)
    (coins : List Coin) (market : Market)
    (coin_price_data : List (Pair × Option ℚ)) (force : Bool)
    (updates_requested : ℕ) : CycleOutcome :=
  match _get_previous_rates call_local coins market with
  | .error _ => ⟨.error .connectionFailed, updates_requested, []⟩
  | .ok previous_rates =>
    match (if force then Except.ok coin_price_data
           else _prepare_rates_for_update previous_rates coin_price_data) with
    | .error _ => ⟨.error .typeError, updates_requested, []⟩
    | .ok rates_for_update =>
      if rates_for_update = [] then ⟨.ok none, updates_requested, []⟩
      else
        match set_rates call_remote rates_for_update with
        | .ok rs =>
          ⟨.ok (some rs), updates_requested + 1,
            [format_coin_prices_for_setter rates_for_update]⟩
        | .error .previousTransactionPending =>
          ⟨.ok none, updates_requested,
            [format_coin_prices_for_setter rates_for_update]⟩
        | .error .otherFailure =>
          ⟨.error .submissionFailed, updates_requested,
            [format_coin_prices_for_setter rates_for_update]⟩

/-- ContractUpdaterMonitor.act delegates to update_prices with its configured
force flag (monitor_actions.py). -/
def ContractUpdaterMonitor_act
    (call_local : String → List String → Except ConnError ℤ)
    (call_remote : String → List String × List ℤ → Except SubmitError ℕ)
    (coins : List Coin) (market : Market)
    (data : List (Pair × Option ℚ)) (force : Bool)
    (updates_requested : ℕ) : CycleOutcome :=
  update_prices call_local call_remote coins market data force updates_requested

/-- ContractUpdaterMonitorForce is ContractUpdaterMonitor constructed with
force=True (monitor_actions.py). -/
def ContractUpdaterMonitorForce_act
    (call_local : String → List String → Except ConnError ℤ)
    (call_remote : String → List String × List ℤ → Except SubmitError ℕ)
    (coins : List Coin) (market : Market)
    (data : List (Pair × Option ℚ))
    (updates_requested : ℕ) : CycleOutcome :=
  ContractUpdaterMonitor_act call_local call_remote coins market data true updates_requested

/-- Entries of a batch whose price is truthy in Python (some nonzero value),
with the price unwrapped; the serializer keeps exactly these, in order. -/
def truthyEntries : List (Pair × Option ℚ) → List (Pair × ℚ)
  | [] => []
  | (_, none) :: rest => truthyEntries rest
  | (pr, some p) :: rest =>
    if p = 0 then truthyEntries rest else (pr, p) :: truthyEntries rest

/-! Concrete objects used by witnesses and counterexamples. -/

/-- A concrete coin with volatility threshold 1/20 = 0.05. -/
def coinA : Coin := ⟨"OMG", "0xA", 1 / 20⟩

/-- A second concrete coin. -/
def coinB : Coin := ⟨"KNC", "0xB", 1 / 10⟩

/-- A concrete market. -/
def mktEth : Market := ⟨"ETH"⟩

/-- Transport oracle whose reads always return the raw rate 0. -/
def clZero : String → List String → Except ConnError ℤ := fun _ _ => .ok 0

/-- Transport oracle whose reads always fail with a connectivity error. -/
def clFail : String → List String → Except ConnError ℤ :=
  fun _ _ => .error .web3ConnectionError

/-- Transport oracle whose writes always succeed with receipt 7. -/
def crOk : String → List String × List ℤ → Except SubmitError ℕ := fun _ _ => .ok 7

/-- Transport oracle whose writes always hit the pending-transaction collision. -/
def crPending : String → List String × List ℤ → Except SubmitError ℕ :=
  fun _ _ => .error .previousTransactionPending

/-! Helper lemmas. -/

/-- pyRound is the identity on integers. -/
lemma pyRound_intCast (n : ℤ) : pyRound (n : ℚ) = n := by
  simp [pyRound]

/-- A zero previous rate takes the bootstrap branch. -/
lemma should_update_zero_baseline (coin : Coin) (mkt : Market) (c : ℚ) :
    _should_update_price coin mkt (some 0) (some c) = .ok true := by
  simp [_should_update_price]

/-- A nonzero previous rate takes the relative-change branch. -/
lemma should_update_pos_baseline (coin : Coin) (mkt : Market) (c : ℚ) {p : ℚ}
    (hp : p ≠ 0) :
    _should_update_price coin mkt (some p) (some c) =
      .ok (decide (|c - p| / p > coin.volatility)) := by
  simp [_should_update_price, hp]

/-- A None current rate raises TypeError in both branches. -/
lemma should_update_none_current (coin : Coin) (mkt : Market) (p : ℚ) :
    _should_update_price coin mkt (some p) none = .error .typeError := rfl

/-- A None previous rate falls into the else branch and raises TypeError. -/
lemma should_update_none_previous (coin : Coin) (mkt : Market) (cur : Option ℚ) :
    _should_update_price coin mkt none cur = .error .typeError := by
  cases cur <;> rfl

/-- Membership in a successfully prepared batch is membership in the input
together with a positive per-pair decision. -/
lemma mem_prepare_iff {previous_rates : List (Pair × ℚ)}
    {new_rates batch : List (Pair × Option ℚ)}
    (h : _prepare_rates_for_update previous_rates new_rates = .ok batch)
    (e : Pair × Option ℚ) :
    e ∈ batch ↔ e ∈ new_rates ∧
      _should_update_price e.1.1 e.1.2
        (_get_previous_rate e.1.1 e.1.2 previous_rates) e.2 = .ok true := by
  induction new_rates generalizing batch with
  | nil =>
    simp only [_prepare_rates_for_update, Except.ok.injEq] at h
    subst h
    simp
  | cons hd rest ih =>
    obtain ⟨⟨hc, hm⟩, hp⟩ := hd
    simp only [_prepare_rates_for_update] at h
    cases hsu : _should_update_price hc hm
        (_get_previous_rate hc hm previous_rates) hp with
    | error e' => rw [hsu] at h; simp at h
    | ok su =>
      rw [hsu] at h
      cases htail : _prepare_rates_for_update previous_rates rest with
      | error e' => rw [htail] at h; simp at h
      | ok tail =>
        rw [htail] at h
        simp only [Except.ok.injEq] at h
        subst h
        cases su with
        | true =>
          simp only [if_true, List.mem_cons, ih htail]
          by_cases he : e = ((hc, hm), hp)
          · subst he
            simp [hsu]
          · simp [he]
        | false =>
          simp only [Bool.false_eq_true, if_false, List.mem_cons, ih htail]
          by_cases he : e = ((hc, hm), hp)
          · subst he
            simp [hsu]
          · simp [he]

/-- A raised per-pair decision aborts the whole batch preparation. -/
lemma prepare_error_of_mem {previous_rates : List (Pair × ℚ)}
    {new_rates : List (Pair × Option ℚ)} {e : Pair × Option ℚ}
    (hmem : e ∈ new_rates)
    (herr : _should_update_price e.1.1 e.1.2
        (_get_previous_rate e.1.1 e.1.2 previous_rates) e.2 = .error PyError.typeError) :
    _prepare_rates_for_update previous_rates new_rates = .error PyError.typeError := by
  induction new_rates with
  | nil => cases hmem
  | cons hd rest ih =>
    obtain ⟨⟨hc, hm⟩, hp⟩ := hd
    simp only [_prepare_rates_for_update]
    rcases List.mem_cons.mp hmem with he | he
    · subst he
      rw [herr]
    · cases hsu : _should_update_price hc hm
          (_get_previous_rate hc hm previous_rates) hp with
      | error e' => cases e'; rfl
      | ok su =>
        rw [ih he]

/-- The serializer keeps exactly the truthy-priced entries, in order, mapping
them to the coin address and the converted price. -/
lemma format_eq_truthy (l : List (Pair × Option ℚ)) :
    format_coin_prices_for_setter l =
      ((truthyEntries l).map fun e => e.1.1.address,
       (truthyEntries l).map fun e => convert_price_to_contract_units e.2) := by
  induction l with
  | nil => rfl
  | cons hd rest ih =>
    obtain ⟨⟨hcn, hm⟩, hp⟩ := hd
    cases hp with
    | none => simpa [format_coin_prices_for_setter, truthyEntries] using ih
    | some p =>
      by_cases h0 : p = 0
      · simpa [format_coin_prices_for_setter, truthyEntries, h0] using ih
      · simp [format_coin_prices_for_setter, truthyEntries, h0, ih]

/-- Every truthy entry comes from an input entry with a nonzero price. -/
lemma mem_truthyEntries {l : List (Pair × Option ℚ)} {e : Pair × ℚ}
    (h : e ∈ truthyEntries l) : (e.1, some e.2) ∈ l ∧ e.2 ≠ 0 := by
  induction l with
  | nil => simp [truthyEntries] at h
  | cons hd rest ih =>
    obtain ⟨pr, hp⟩ := hd
    cases hp with
    | none =>
      simp only [truthyEntries] at h
      exact ⟨List.mem_cons_of_mem _ (ih h).1, (ih h).2⟩
    | some p =>
      by_cases h0 : p = 0
      · simp only [truthyEntries, if_pos h0] at h
        exact ⟨List.mem_cons_of_mem _ (ih h).1, (ih h).2⟩
      · simp only [truthyEntries, if_neg h0] at h
        rcases List.mem_cons.mp h with he | he
        · subst he
          exact ⟨List.mem_cons_self _ _, h0⟩
        · exact ⟨List.mem_cons_of_mem _ (ih he).1, (ih he).2⟩

/-- Claim C3 counterexample: with an empty baseline map, an observed pair is
not included via a bootstrap path; the decision step raises TypeError. -/
theorem absent_baseline_counterexample :
    _prepare_rates_for_update [] [((coinA, mktEth), some 1)] =
      .error PyError.typeError := rfl

/-- Claim C3 (amended): a pair that is absent from the fetched baseline map
gets previous rate None rather than 0, and the decision step then fails with
a TypeError, aborting the whole batch preparation, instead of including the
pair via the bootstrap path. -/
theorem absent_baseline_fails
    (previous_rates : List (Pair × ℚ)) (new_rates : List (Pair × Option ℚ))
    (pr : Pair) (price : Option ℚ)
    (hmem : (pr, price) ∈ new_rates)
    (hlook : _get_previous_rate pr.1 pr.2 previous_rates = none) :
    _prepare_rates_for_update previous_rates new_rates = .error PyError.typeError := by
  apply prepare_error_of_mem hmem
  dsimp only
  rw [hlook]
  exact should_update_none_previous _ _ _

/-- Witness for absent_baseline_fails at a concrete input. -/
theorem absent_baseline_fails_witness :
    _prepare_rates_for_update [((coinA, mktEth), 100)] [((coinB, mktEth), some 2)] =
      .error PyError.typeError :=
  absent_baseline_fails _ _ (coinB, mktEth) (some 2) (by simp)
    (by simp [_get_previous_rate, coinA, coinB])

/-- Claim C4 (supporting theorem): under the exact rational arithmetic that
the spec mandates, converting a non-negative integer from chain units and
back is the identity.  The code instead computes both directions in binary
floating point, where this fails, for example at the raw value
16883000000000000 from the docstring of convert_price_to_contract_units. -/
theorem chain_units_roundtrip_exact (x : ℤ) (hx : 0 ≤ x) :
    convert_price_to_contract_units (convert_rate_from_contract_units x) = x := by
  have hF : (CHANGE_FACTOR : ℚ) ≠ 0 := by norm_num [CHANGE_FACTOR]
  unfold convert_price_to_contract_units convert_rate_from_contract_units
  rw [div_mul_cancel₀ _ hF, pyRound_intCast]

/-- Witness for chain_units_roundtrip_exact at the docstring rate. -/
theorem chain_units_roundtrip_exact_witness :
    (0 : ℤ) ≤ 16883000000000000 ∧
      convert_price_to_contract_units
        (convert_rate_from_contract_units 16883000000000000) = 16883000000000000 :=
  ⟨by norm_num, chain_units_roundtrip_exact 16883000000000000 (by norm_num)⟩

/-- Claim C1: for a pair whose baseline rate is strictly positive, the
decision step includes the pair in the update batch if and only if the
relative change abs(observed - baseline) / baseline is strictly greater than
the volatility threshold of the asset; equality does not trigger an update. -/
theorem threshold_decision_strict
    (previous_rates : List (Pair × ℚ)) (new_rates batch : List (Pair × Option ℚ))
    (coin : Coin) (mkt : Market) (c p : ℚ)
    (hlook : _get_previous_rate coin mkt previous_rates = some p) (hp : 0 < p)
    (hmem : ((coin, mkt), some c) ∈ new_rates)
    (hok : _prepare_rates_for_update previous_rates new_rates = .ok batch) :
    ((coin, mkt), some c) ∈ batch ↔ |c - p| / p > coin.volatility := by
  rw [mem_prepare_iff hok]
  dsimp only
  rw [hlook, should_update_pos_baseline coin mkt c (ne_of_gt hp)]
  simp [hmem]

/-- Witness for threshold_decision_strict: baseline 100, threshold 1/20,
observed 106 is a 6 percent change and is included. -/
theorem threshold_decision_strict_witness :
    (((coinA, mktEth), some (106 : ℚ)) ∈ [((coinA, mktEth), some (106 : ℚ))]) ↔
      |(106 : ℚ) - 100| / 100 > coinA.volatility :=
  threshold_decision_strict [((coinA, mktEth), 100)] [((coinA, mktEth), some 106)]
    [((coinA, mktEth), some 106)] coinA mktEth 106 100
    (by simp [_get_previous_rate]) (by norm_num) (by simp)
    (by norm_num [_prepare_rates_for_update, _get_previous_rate,
      _should_update_price, coinA])

/-- Claim C2: for a pair whose fetched baseline rate is 0, the decision step
includes the pair in the update batch unconditionally, whatever the observed
price and the volatility threshold, as long as the observation is usable. -/
theorem zero_baseline_bootstrap
    (previous_rates : List (Pair × ℚ)) (new_rates batch : List (Pair × Option ℚ))
    (coin : Coin) (mkt : Market) (c : ℚ)
    (hlook : _get_previous_rate coin mkt previous_rates = some 0)
    (hmem : ((coin, mkt), some c) ∈ new_rates)
    (hok : _prepare_rates_for_update previous_rates new_rates = .ok batch) :
    ((coin, mkt), some c) ∈ batch := by
  rw [mem_prepare_iff hok]
  refine ⟨hmem, ?_⟩
  dsimp only
  rw [hlook]
  exact should_update_zero_baseline coin mkt c

/-- Witness for zero_baseline_bootstrap: baseline 0, observed price 5 far
below any threshold concern, still included. -/
theorem zero_baseline_bootstrap_witness :
    ((coinA, mktEth), some (5 : ℚ)) ∈ [((coinA, mktEth), some (5 : ℚ))] :=
  zero_baseline_bootstrap [((coinA, mktEth), 0)] [((coinA, mktEth), some 5)]
    [((coinA, mktEth), some 5)] coinA mktEth 5
    (by simp [_get_previous_rate]) (by simp)
    (by simp [_prepare_rates_for_update, _get_previous_rate, _should_update_price])

/-- A connectivity failure on any single read aborts the whole baseline
fetch (asyncio.gather propagates the exception). -/
lemma get_previous_rates_error
    (call_local : String → List String → Except ConnError ℤ)
    (coins : List Coin) (mkt : Market) (coin : Coin)
    (hc : coin ∈ coins)
    (he : call_local GET_RATE_FUNCTION_NAME (format_coin_for_getter coin) =
      .error .web3ConnectionError) :
    _get_previous_rates call_local coins mkt = .error ConnError.web3ConnectionError := by
  induction coins with
  | nil => cases hc
  | cons hd rest ih =>
    simp only [_get_previous_rates]
    rcases List.mem_cons.mp hc with h | h
    · subst h
      rw [get_rate, he]
    · cases hg : get_rate call_local hd with
      | error e => cases e; rfl
      | ok rate => rw [ih h]

/-- A failing read for a tracked coin makes the whole cycle return the
connection error without any remote call or counter change. -/
lemma update_prices_conn_error
    (call_local : String → List String → Except ConnError ℤ)
    (call_remote : String → List String × List ℤ → Except SubmitError ℕ)
    (coins : List Coin) (mkt : Market) (data : List (Pair × Option ℚ))
    (force : Bool) (n : ℕ) (coin : Coin)
    (hc : coin ∈ coins)
    (he : call_local GET_RATE_FUNCTION_NAME (format_coin_for_getter coin) =
      .error .web3ConnectionError) :
    update_prices call_local call_remote coins mkt data force n =
      ⟨.error .connectionFailed, n, []⟩ := by
  unfold update_prices
  rw [get_previous_rates_error call_local coins mkt coin hc he]

/-- Claim C6: a connectivity failure reading the on-chain rate of any single
asset aborts the whole cycle: the result is the connection error, the
updates-requested counter is unchanged, and no remote write call is made, so
no pair, not even one whose read succeeded, is updated that cycle. -/
theorem fetch_failure_aborts_cycle
    (call_local : String → List String → Except ConnError ℤ)
    (call_remote : String → List String × List ℤ → Except SubmitError ℕ)
    (coins : List Coin) (mkt : Market) (data : List (Pair × Option ℚ))
    (force : Bool) (n : ℕ) (coin : Coin)
    (hc : coin ∈ coins)
    (he : call_local GET_RATE_FUNCTION_NAME (format_coin_for_getter coin) =
      .error .web3ConnectionError) :
    update_prices call_local call_remote coins mkt data force n =
      ⟨.error .connectionFailed, n, []⟩ :=
  update_prices_conn_error call_local call_remote coins mkt data force n coin hc he

/-- Witness for fetch_failure_aborts_cycle: one coin, failing transport. -/
theorem fetch_failure_aborts_cycle_witness :
    update_prices clFail crOk [coinB] mktEth [((coinB, mktEth), some 1)] false 0 =
      ⟨.error .connectionFailed, 0, []⟩ :=
  fetch_failure_aborts_cycle clFail crOk [coinB] mktEth
    [((coinB, mktEth), some 1)] false 0 coinB (by simp) rfl

/-- Claim C7: on a pending-transaction collision update_prices swallows the
error into a None cycle result with exactly one remote call (no resend in the
cycle) and no counter increment; the counter is incremented exactly when the
submission succeeds. -/
theorem collision_no_resend
    (call_local : String → List String → Except ConnError ℤ)
    (call_remote : String → List String × List ℤ → Except SubmitError ℕ)
    (coins : List Coin) (mkt : Market) (data : List (Pair × Option ℚ)) (n : ℕ)
    (prev : List (Pair × ℚ)) (ru : List (Pair × Option ℚ))
    (hprev : _get_previous_rates call_local coins mkt = .ok prev)
    (hprep : _prepare_rates_for_update prev data = .ok ru)
    (hne : ru ≠ []) :
    (call_remote SET_RATES_FUNCTION_NAME (format_coin_prices_for_setter ru) =
        .error .previousTransactionPending →
      update_prices call_local call_remote coins mkt data false n =
        ⟨.ok none, n, [format_coin_prices_for_setter ru]⟩) ∧
    ((update_prices call_local call_remote coins mkt data false n).updates_requested
        = n + 1 ↔
      ∃ rs, call_remote SET_RATES_FUNCTION_NAME (format_coin_prices_for_setter ru) =
        .ok rs) := by
  unfold update_prices
  rw [hprev]
  simp only [Bool.false_eq_true, if_false, hprep, if_neg hne, set_rates]
  constructor
  · intro hpend
    rw [hpend]
  · cases hsub : call_remote SET_RATES_FUNCTION_NAME
        (format_coin_prices_for_setter ru) with
    | ok rs => simp
    | error se => cases se <;> simp

/-- Witness for collision_no_resend: one coin with baseline 0 and a pending
collision on submission. -/
theorem collision_no_resend_witness :
    (crPending SET_RATES_FUNCTION_NAME
        (format_coin_prices_for_setter [((coinA, mktEth), some 1)]) =
        .error .previousTransactionPending →
      update_prices clZero crPending [coinA] mktEth [((coinA, mktEth), some 1)] false 0 =
        ⟨.ok none, 0, [format_coin_prices_for_setter [((coinA, mktEth), some 1)]]⟩) ∧
    ((update_prices clZero crPending [coinA] mktEth
        [((coinA, mktEth), some 1)] false 0).updates_requested = 0 + 1 ↔
      ∃ rs, crPending SET_RATES_FUNCTION_NAME
        (format_coin_prices_for_setter [((coinA, mktEth), some 1)]) = .ok rs) :=
  collision_no_resend clZero crPending [coinA] mktEth [((coinA, mktEth), some 1)] 0
    [((coinA, mktEth), 0)] [((coinA, mktEth), some 1)]
    (by simp [_get_previous_rates, get_rate, clZero, convert_rate_from_contract_units])
    (by simp [_prepare_rates_for_update, _get_previous_rate, _should_update_price])
    (by simp)

/-- Claim C8 (amended): when the decided batch is empty, update_prices makes
zero remote write calls and returns None with the counter unchanged; this
no-op result differs from every successful submission result (some receipt),
though not from the pending-collision result, which is also None. -/
theorem empty_batch_noop
    (call_local : String → List String → Except ConnError ℤ)
    (call_remote : String → List String × List ℤ → Except SubmitError ℕ)
    (coins : List Coin) (mkt : Market) (data : List (Pair × Option ℚ)) (n : ℕ)
    (prev : List (Pair × ℚ))
    (hprev : _get_previous_rates call_local coins mkt = .ok prev)
    (hprep : _prepare_rates_for_update prev data = .ok []) :
    update_prices call_local call_remote coins mkt data false n = ⟨.ok none, n, []⟩ ∧
    ∀ rs : ℕ,
      (update_prices call_local call_remote coins mkt data false n).result ≠
        .ok (some rs) := by
  have h : update_prices call_local call_remote coins mkt data false n =
      ⟨.ok none, n, []⟩ := by
    unfold update_prices
    rw [hprev]
    simp [hprep]
  refine ⟨h, fun rs => ?_⟩
  rw [h]
  simp

/-- Witness for empty_batch_noop: no observations at all. -/
theorem empty_batch_noop_witness :
    update_prices clZero crOk [] mktEth [] false 3 = ⟨.ok none, 3, []⟩ ∧
    ∀ rs : ℕ, (update_prices clZero crOk [] mktEth [] false 3).result ≠
      .ok (some rs) :=
  empty_batch_noop clZero crOk [] mktEth [] 3 [] rfl rfl

/-- Converting the unit price gives exactly the scale factor. -/
lemma conv_one : convert_price_to_contract_units 1 = CHANGE_FACTOR := by
  rw [convert_price_to_contract_units, one_mul, pyRound_intCast]

/-- Converting price -1 gives the negated scale factor. -/
lemma conv_neg_one : convert_price_to_contract_units (-1) = -CHANGE_FACTOR := by
  rw [convert_price_to_contract_units]
  have h : (-1 : ℚ) * (CHANGE_FACTOR : ℚ) = ((-CHANGE_FACTOR : ℤ) : ℚ) := by
    push_cast
    ring
  rw [h, pyRound_intCast]

/-- Claim C8 counterexample: the empty-batch no-op result (None) is equal to
the result of a cycle whose real submission hit the pending-transaction
collision, so the no-op result is not distinct from every real submission
outcome. -/
theorem noop_result_equals_collision_result :
    (update_prices clZero crPending [] mktEth [] false 0).result =
      (update_prices clZero crPending [coinA] mktEth
        [((coinA, mktEth), some 1)] false 0).result ∧
    (update_prices clZero crPending [coinA] mktEth
        [((coinA, mktEth), some 1)] false 0).remote_calls ≠ [] := by
  have h1 : _get_previous_rates clZero [coinA] mktEth = .ok [((coinA, mktEth), 0)] := by
    simp [_get_previous_rates, get_rate, clZero, convert_rate_from_contract_units]
  have h2 : _prepare_rates_for_update [((coinA, mktEth), 0)]
      [((coinA, mktEth), some 1)] = .ok [((coinA, mktEth), some 1)] := by
    simp [_prepare_rates_for_update, _get_previous_rate, _should_update_price]
  have hrun : update_prices clZero crPending [coinA] mktEth
      [((coinA, mktEth), some 1)] false 0 =
      ⟨.ok none, 0, [format_coin_prices_for_setter [((coinA, mktEth), some 1)]]⟩ := by
    unfold update_prices
    rw [h1]
    simp [h2, set_rates, crPending]
  have hempty : update_prices clZero crPending [] mktEth [] false 0 =
      ⟨.ok none, 0, []⟩ := rfl
  rw [hrun, hempty]
  simp

/-- Claim C5 counterexample: an observation with the non-positive price -1
and a zero baseline is selected by the decision step and serialized, so its
address and scaled rate do reach the contract arrays. -/
theorem negative_price_reaches_contract :
    (update_prices clZero crOk [coinA] mktEth
      [((coinA, mktEth), some (-1))] false 0).remote_calls =
      [(["0xA"], [-CHANGE_FACTOR])] := by
  have h1 : _get_previous_rates clZero [coinA] mktEth = .ok [((coinA, mktEth), 0)] := by
    simp [_get_previous_rates, get_rate, clZero, convert_rate_from_contract_units]
  have h2 : _prepare_rates_for_update [((coinA, mktEth), 0)]
      [((coinA, mktEth), some (-1))] = .ok [((coinA, mktEth), some (-1))] := by
    simp [_prepare_rates_for_update, _get_previous_rate, _should_update_price]
  have h3 : format_coin_prices_for_setter [((coinA, mktEth), some (-1))] =
      (["0xA"], [-CHANGE_FACTOR]) := by
    simp [format_coin_prices_for_setter, coinA, conv_neg_one]
  unfold update_prices
  rw [h1]
  simp [h2, set_rates, crOk, h3]

/-- Claim C5 (amended): every element of the addresses array and of the rates
array of any remote write originates from an observation with a truthy
(non-None, nonzero) price, so pairs priced None or 0 never reach the
contract; negative prices, however, are truthy in Python and are not
filtered, and a None price with a nonzero baseline aborts the decision step
with a TypeError instead of being skipped. -/
theorem arrays_only_truthy_prices
    (call_local : String → List String → Except ConnError ℤ)
    (call_remote : String → List String × List ℤ → Except SubmitError ℕ)
    (coins : List Coin) (mkt : Market) (data : List (Pair × Option ℚ))
    (force : Bool) (n : ℕ) (args : List String × List ℤ)
    (hargs : args ∈
      (update_prices call_local call_remote coins mkt data force n).remote_calls) :
    (∀ s ∈ args.1, ∃ coin market c,
      ((coin, market), some c) ∈ data ∧ c ≠ 0 ∧ s = coin.address) ∧
    (∀ r ∈ args.2, ∃ coin market c,
      ((coin, market), some c) ∈ data ∧ c ≠ 0 ∧
        r = convert_price_to_contract_units c) := by
  cases hprev : _get_previous_rates call_local coins mkt with
  | error e => simp only [update_prices, hprev] at hargs; simp at hargs
  | ok prev =>
    simp only [update_prices, hprev] at hargs
    cases hru : (if force then Except.ok data
        else _prepare_rates_for_update prev data) with
    | error e => simp only [hru] at hargs; simp at hargs
    | ok ru =>
      simp only [hru] at hargs
      by_cases hemp : ru = []
      · simp [hemp] at hargs
      · simp only [if_neg hemp, set_rates] at hargs
        have hargs' : args = format_coin_prices_for_setter ru := by
          cases hsub : call_remote SET_RATES_FUNCTION_NAME
              (format_coin_prices_for_setter ru) with
          | ok rs => simp only [hsub] at hargs; simpa using hargs
          | error se =>
            cases se <;> (simp only [hsub] at hargs; simpa using hargs)
        subst hargs'
        have hsubset : ∀ e : Pair × Option ℚ, e ∈ ru → e ∈ data := by
          cases force with
          | true =>
            simp only [if_true, Except.ok.injEq] at hru
            subst hru
            exact fun _ he => he
          | false =>
            simp only [Bool.false_eq_true, if_false] at hru
            exact fun e he => ((mem_prepare_iff hru e).mp he).1
        rw [format_eq_truthy]
        constructor
        · intro s hs
          simp only [List.mem_map] at hs
          obtain ⟨e', he', rfl⟩ := hs
          obtain ⟨hin, hne⟩ := mem_truthyEntries he'
          exact ⟨e'.1.1, e'.1.2, e'.2, hsubset _ hin, hne, rfl⟩
        · intro r hr
          simp only [List.mem_map] at hr
          obtain ⟨e', he', rfl⟩ := hr
          obtain ⟨hin, hne⟩ := mem_truthyEntries he'
          exact ⟨e'.1.1, e'.1.2, e'.2, hsubset _ hin, hne, rfl⟩

/-- Witness for arrays_only_truthy_prices: a successful one-pair submission. -/
theorem arrays_only_truthy_prices_witness :
    (∀ s ∈ (format_coin_prices_for_setter [((coinA, mktEth), some (2 : ℚ))]).1,
      ∃ coin market c,
        ((coin, market), some c) ∈ [((coinA, mktEth), some (2 : ℚ))] ∧ c ≠ 0 ∧
          s = coin.address) ∧
    (∀ r ∈ (format_coin_prices_for_setter [((coinA, mktEth), some (2 : ℚ))]).2,
      ∃ coin market c,
        ((coin, market), some c) ∈ [((coinA, mktEth), some (2 : ℚ))] ∧ c ≠ 0 ∧
          r = convert_price_to_contract_units c) :=
  arrays_only_truthy_prices clZero crOk [coinA] mktEth
    [((coinA, mktEth), some 2)] false 0
    (format_coin_prices_for_setter [((coinA, mktEth), some 2)]) (by
      have h1 : _get_previous_rates clZero [coinA] mktEth =
          .ok [((coinA, mktEth), 0)] := by
        simp [_get_previous_rates, get_rate, clZero, convert_rate_from_contract_units]
      have h2 : _prepare_rates_for_update [((coinA, mktEth), 0)]
          [((coinA, mktEth), some 2)] = .ok [((coinA, mktEth), some 2)] := by
        simp [_prepare_rates_for_update, _get_previous_rate, _should_update_price]
      unfold update_prices
      rw [h1]
      simp [h2, set_rates, crOk])

/-- Claim C9: the two arrays produced for the setter call have equal length
and index correspondence: position i of sources is the address of the i-th
included (truthy-priced) pair and position i of rates is the chain-units
conversion of the price of that same pair. -/
theorem setter_arrays_aligned (batch : List (Pair × Option ℚ)) :
    (format_coin_prices_for_setter batch).1.length =
      (format_coin_prices_for_setter batch).2.length ∧
    ∀ i : ℕ,
      (format_coin_prices_for_setter batch).1[i]? =
        ((truthyEntries batch)[i]?.map fun e => e.1.1.address) ∧
      (format_coin_prices_for_setter batch).2[i]? =
        ((truthyEntries batch)[i]?.map fun e => convert_price_to_contract_units e.2) := by
  rw [format_eq_truthy]
  exact ⟨by simp, fun i => ⟨by simp [List.getElem?_map], by simp [List.getElem?_map]⟩⟩

/-- With force set, a successful fetch and a nonempty observation list lead
to exactly one remote call whose arrays serialize all truthy observations. -/
lemma update_prices_force_calls
    (call_local : String → List String → Except ConnError ℤ)
    (call_remote : String → List String × List ℤ → Except SubmitError ℕ)
    (coins : List Coin) (mkt : Market) (data : List (Pair × Option ℚ)) (n : ℕ)
    (prev : List (Pair × ℚ))
    (hprev : _get_previous_rates call_local coins mkt = .ok prev)
    (hne : data ≠ []) :
    (update_prices call_local call_remote coins mkt data true n).remote_calls =
      [format_coin_prices_for_setter data] := by
  unfold update_prices
  rw [hprev]
  simp only [if_true, if_neg hne, set_rates]
  cases hsub : call_remote SET_RATES_FUNCTION_NAME
      (format_coin_prices_for_setter data) with
  | ok rs => simp
  | error se => cases se <;> simp

/-- Claim C10: in force mode the decision engine is bypassed, and when the
baseline fetch succeeds the single submitted call serializes every truthy
observation whatever the baselines and thresholds; yet the previous rates
are still fetched first, so a connectivity failure on any single read still
aborts the forced cycle with no call made. -/
theorem force_mode_bypasses_decision
    (call_local : String → List String → Except ConnError ℤ)
    (call_remote : String → List String × List ℤ → Except SubmitError ℕ)
    (coins : List Coin) (mkt : Market) (data : List (Pair × Option ℚ)) (n : ℕ) :
    (∀ prev, _get_previous_rates call_local coins mkt = .ok prev → data ≠ [] →
      (ContractUpdaterMonitorForce_act call_local call_remote coins mkt data n).remote_calls
        = [((truthyEntries data).map fun e => e.1.1.address,
            (truthyEntries data).map fun e => convert_price_to_contract_units e.2)]) ∧
    (∀ coin, coin ∈ coins →
      call_local GET_RATE_FUNCTION_NAME (format_coin_for_getter coin) =
        .error .web3ConnectionError →
      ContractUpdaterMonitorForce_act call_local call_remote coins mkt data n =
        ⟨.error .connectionFailed, n, []⟩) := by
  constructor
  · intro prev hprev hne
    unfold ContractUpdaterMonitorForce_act ContractUpdaterMonitor_act
    rw [update_prices_force_calls call_local call_remote coins mkt data n prev
      hprev hne, format_eq_truthy]
  · intro coin hc he
    unfold ContractUpdaterMonitorForce_act ContractUpdaterMonitor_act
    exact update_prices_conn_error call_local call_remote coins mkt data true n
      coin hc he

/-- Witness for force_mode_bypasses_decision: an untracked coin is submitted
with no baseline at all, and a failing read aborts a forced cycle. -/
theorem force_mode_bypasses_decision_witness :
    ((ContractUpdaterMonitorForce_act clZero crOk [] mktEth
        [((coinB, mktEth), some (2 : ℚ))] 0).remote_calls =
      [((truthyEntries [((coinB, mktEth), some (2 : ℚ))]).map fun e => e.1.1.address,
        (truthyEntries [((coinB, mktEth), some (2 : ℚ))]).map
          fun e => convert_price_to_contract_units e.2)]) ∧
    (ContractUpdaterMonitorForce_act clFail crOk [coinA] mktEth
        [((coinB, mktEth), some (2 : ℚ))] 0 =
      ⟨.error .connectionFailed, 0, []⟩) :=
  ⟨(force_mode_bypasses_decision clZero crOk [] mktEth
      [((coinB, mktEth), some 2)] 0).1 [] rfl (by simp),
   (force_mode_bypasses_decision clFail crOk [coinA] mktEth
      [((coinB, mktEth), some 2)] 0).2 coinA (by simp) rfl⟩

end PriceMonitor
